import Mathlib

/-!
Verification of the TinyHero3D rendering engine core against its
specification.  The development shallowly embeds three parts of the source:

* the BTOC binary container (src/modules/btoc/btoc.ts),
* the mesh codec geometry path (BtocMeshWriter / BtocMeshReader),
* the render-state bind machine and uniform model (src/modules/core.ts).

JavaScript numbers are modelled as `Nat` with explicit reductions mod `2 ^ 32`
(respectively mod `2 ^ 8` / `2 ^ 16`) exactly where the source performs a
32-bit bitwise operation or stores into a typed array.  JavaScript `Map`
objects are modelled as association lists in insertion order, which is the
iteration order the source relies on.  `console.assert` and `console.warn`
only log in JavaScript and never alter control flow, so they are modelled as
comments (or, where a claim is about the signalled condition, as a returned
`Bool` holding the assertion condition).  Code paths that throw or crash are
modelled with `Option`, `none` meaning the JavaScript execution fails.
-/

namespace TinyHero

namespace Btoc

/-- A byte string: each element is a byte value `0 ≤ b < 256`. -/
abbrev Bytes := List Nat

/-- One container entry: the name as its UTF-8 byte sequence, and the blob.
The source keys its `Map` by JavaScript string; UTF-8 encoding is a bijection
between strings and their encodings (TextEncoder / TextDecoder), so names are
represented by their byte sequences throughout. -/
abbrev Entry := Bytes × Bytes

/-- One byte of `writeU64`: models the JavaScript expression
`bytes[start+i] = (value >> s)` where `s = (7-i)*8`.  JavaScript `>>` first
truncates the operand to 32 bits and reduces the shift count mod 32, and the
`Uint8Array` store keeps the low 8 bits of the result.  For a nonnegative
integer `v` this is `((v mod 2^32) >>> (s mod 32)) mod 2^8`. -/
def jsShiftByte (v s : Nat) : Nat := ((v % 2 ^ 32) >>> (s % 32)) % 256

/-- `writeU64(bytes, start, value)` from btoc.ts, rendered as the 8 bytes the
loop `for i in 0..7 : bytes[start+i] = value >> ((7-i)*8)` stores. -/
def writeU64 (v : Nat) : Bytes :=
  [jsShiftByte v 56, jsShiftByte v 48, jsShiftByte v 40, jsShiftByte v 32,
   jsShiftByte v 24, jsShiftByte v 16, jsShiftByte v 8, jsShiftByte v 0]

/-- `readU64(bytes, start)` from btoc.ts with the loop
`number |= bytes[start+i] << ((7-i)*8)` unrolled: JavaScript reduces the
shift counts mod 32 (56,48,40,32 become 24,16,8,0).  Out-of-range reads give
`undefined` in JavaScript; theorems below only read in range, where `getD`
agrees.  JavaScript produces the value as a signed 32-bit integer; this model
returns the bit pattern as a `Nat`, which agrees with the source whenever the
result is below `2 ^ 31` — the size bound carried by the round-trip theorem. -/
def readU64 (bytes : Bytes) (start : Nat) : Nat :=
  bytes.getD (start + 7) 0
    ||| (bytes.getD (start + 0) 0) <<< 24
    ||| (bytes.getD (start + 1) 0) <<< 16
    ||| (bytes.getD (start + 2) 0) <<< 8
    ||| (bytes.getD (start + 3) 0) <<< 0
    ||| (bytes.getD (start + 4) 0) <<< 24
    ||| (bytes.getD (start + 5) 0) <<< 16
    ||| (bytes.getD (start + 6) 0) <<< 8

/-- `entries.has(name)` on the JavaScript `Map`. -/
def entriesHas (entries : List Entry) (name : Bytes) : Bool :=
  entries.any fun e => e.1 == name

/-- `entries.get(name)` on the JavaScript `Map`. -/
def lookupEntry (entries : List Entry) (name : Bytes) : Option Bytes :=
  (entries.find? fun e => e.1 == name).map fun e => e.2

/-- `entries.set(name, blob)` on the JavaScript `Map`: replaces the value in
place when the key is present (keeping its position), appends otherwise. -/
def mapSet (entries : List Entry) (name blob : Bytes) : List Entry :=
  if entriesHas entries name then
    entries.map fun e => if e.1 == name then (name, blob) else e
  else entries ++ [(name, blob)]

/-- `BtocFile.setBinary(name, binary)`: the source runs
`console.assert(!this.entries.has(name))` — which only logs — and then
`this.entries.set(name, binary)` unconditionally.  The returned `Bool` is the
assertion condition (`false` means the duplicate-name assertion fired). -/
def setBinary (entries : List Entry) (name binary : Bytes) : Bool × List Entry :=
  (!(entriesHas entries name), mapSet entries name binary)

/-- `binariesSize` in `encodeAsBytes`: total length of all blobs (the first
loop sums over every entry, oversized names included). -/
def blobsSize (es : List Entry) : Nat := (es.map fun e => e.2.length).sum

/-- `entriesSize` in `encodeAsBytes`: `17 + nameUTF8.length` per entry
(again summed over every entry). -/
def entriesSize (es : List Entry) : Nat := (es.map fun e => 17 + e.1.length).sum

/-- The blob region content written by the second loop of `encodeAsBytes`:
blobs of the entries that pass the 255-byte name check, back to back
(a skipped entry does not advance `binaryCursor`). -/
def keptBlobBytes : List Entry → Bytes
  | [] => []
  | (n, b) :: rest => if n.length > 255 then keptBlobBytes rest else b ++ keptBlobBytes rest

/-- The table-of-contents region written by the second loop of
`encodeAsBytes`, starting with `binaryCursor = c`: per kept entry one byte of
name length, the name bytes, and the two `writeU64` cursor fields. -/
def keptTocBytes : List Entry → Nat → Bytes
  | [], _ => []
  | (n, b) :: rest, c =>
    if n.length > 255 then keptTocBytes rest c
    else n.length :: (n ++ writeU64 c ++ writeU64 (c + b.length)) ++ keptTocBytes rest (c + b.length)

/-- `BtocFile.encodeAsBytes()`.  The source allocates a zero-filled array of
`binariesSize + entriesSize + 16` bytes and then writes with two strictly
increasing cursors: `writeU64` of `tocStart` at offset 0, blobs from offset 8,
`writeU64` of the entry count at `tocStart = binariesSize + 8`, and the table
of contents from `tocStart + 8`.  That is rendered here as concatenation; a
skipped (oversized-name) entry advances neither cursor, leaving its counted
space as trailing zero bytes of each region. -/
def encodeAsBytes (es : List Entry) : Bytes :=
  writeU64 (blobsSize es + 8)
    ++ (keptBlobBytes es ++ List.replicate (blobsSize es - (keptBlobBytes es).length) 0)
    ++ writeU64 es.length
    ++ (keptTocBytes es 8 ++ List.replicate (entriesSize es - (keptTocBytes es 8).length) 0)

/-- The entry-reading loop of `BtocFile._read`: `fuel` is the remaining loop
count, `cursor` the current table-of-contents position.  `bytes.slice(a, b)`
is `(drop a).take (b - a)` (JavaScript `slice` clamps to the array bounds,
as `drop`/`take` do). -/
def readToc (bytes : Bytes) : Nat → Nat → List Entry
  | _, 0 => []
  | cursor, fuel + 1 =>
    let nameLength := bytes.getD cursor 0
    let nameStart := cursor + 1
    let nameEnd := nameStart + nameLength
    let name := (bytes.drop nameStart).take nameLength
    let start := readU64 bytes nameEnd
    let stop := readU64 bytes (nameEnd + 8)
    (name, (bytes.drop start).take (stop - start)) :: readToc bytes (nameEnd + 16) fuel

/-- The list of entries `BtocFile._read` visits, in loop order: the loop
starts at `cursor = tocStart + 8` and runs `count` times, where
`tocStart = readU64(bytes, 0)` and `count = readU64(bytes, tocStart)`. -/
def readEntryList (bytes : Bytes) : List Entry :=
  readToc bytes (readU64 bytes 0 + 8) (readU64 bytes (readU64 bytes 0))

/-- `BtocFile._read` (and so `BtocFile.from`): the loop stores each visited
entry into the result `Map` with `result.set(name, entryBytes)`. -/
def fromBytes (bytes : Bytes) : List Entry :=
  (readEntryList bytes).foldl (fun acc e => mapSet acc e.1 e.2) []

/-- The unsigned 64-bit big-endian encoding the specification describes
("all integers unsigned 64-bit, big-endian").  This follows the
specification's words, for comparison against `writeU64` above, which is
what the source actually does. -/
def specBigEndianU64 (v : Nat) : Bytes :=
  [v / 2 ^ 56 % 256, v / 2 ^ 48 % 256, v / 2 ^ 40 % 256, v / 2 ^ 32 % 256,
   v / 2 ^ 24 % 256, v / 2 ^ 16 % 256, v / 2 ^ 8 % 256, v % 256]

end Btoc

end TinyHero

namespace TinyHero

namespace Btoc

/-- C4: refuted.  JavaScript `>>` reduces shift counts mod 32, so `writeU64`
writes the low 32 bits of the value twice instead of an unsigned 64-bit
big-endian number.  Already for the empty container the `tocStart` field
(value 8) is encoded as `[0,0,0,8,0,0,0,8]`: the byte at offset 3 is 8, not
0, contradicting both the claimed big-endian layout and the claim that the
first four bytes of a field holding a value below `2 ^ 32` are zero. -/
theorem c4_writeU64_not_big_endian :
    encodeAsBytes [] = [0, 0, 0, 8, 0, 0, 0, 8, 0, 0, 0, 0, 0, 0, 0, 0]
      ∧ (encodeAsBytes []).take 8 ≠ specBigEndianU64 8
      ∧ (encodeAsBytes []).getD 3 0 ≠ 0 := by
  refine ⟨by decide, by decide, by decide⟩

/-- Helper for C5: `mapSet` stores the new blob under the given name no
matter whether the name was already present. -/
theorem lookupEntry_mapSet (es : List Entry) (name blob : Bytes) :
    lookupEntry (mapSet es name blob) name = some blob := by
  unfold mapSet
  by_cases h : entriesHas es name
  · simp only [h, if_true]
    induction es with
    | nil => simp [entriesHas] at h
    | cons e rest ih =>
      by_cases he : e.1 == name
      · simp [lookupEntry, List.find?, he]
      · have hr : entriesHas rest name := by
          simp [entriesHas] at h ⊢
          rcases h with h | h
          · exact absurd (by simpa using h) (by simpa using he)
          · simpa [entriesHas] using h
        have := ih hr
        simp only [lookupEntry, List.map_cons, List.find?] at this ⊢
        simp only [he, if_false]
        simpa [lookupEntry, he] using this
  · simp only [h, if_false]
    induction es with
    | nil => simp [lookupEntry, List.find?]
    | cons e rest ih =>
      have he : (e.1 == name) = false := by
        by_contra hc
        simp [entriesHas, List.any_cons] at h
        exact absurd h.1 (by simpa using (Bool.of_not_eq_false hc))
      have hr : ¬ entriesHas rest name := by
        intro hc
        simp [entriesHas, List.any_cons] at h
        exact absurd hc (by simpa [entriesHas] using h.2)
      have := ih hr
      simpa [lookupEntry, List.find?, he] using this

/-- C5 counterexample: on a container already holding name `[97]` with bytes
`[1]`, `setBinary` with new bytes `[2]` fires the assertion (the returned
condition is `false`) but still overwrites: afterwards the stored bytes are
`[2]`, not the previous `[1]` the claim requires. -/
theorem c5_counterexample :
    (setBinary [([97], [1])] [97] [2]).1 = false
      ∧ lookupEntry (setBinary [([97], [1])] [97] [2]).2 [97] = some [2]
      ∧ some ([2] : Bytes) ≠ some ([1] : Bytes) := by
  refine ⟨by decide, by decide, by decide⟩

/-- C5 amended: for a name already present, `setBinary` signals the
programmer error through its `console.assert` condition (which only logs and
does not throw), and then overwrites: afterwards the container stores the
new bytes under that name, not the previously stored bytes. -/
theorem c5_setBinary_overwrites (es : List Entry) (name old new : Bytes)
    (hold : lookupEntry es name = some old) :
    (setBinary es name new).1 = false
      ∧ lookupEntry (setBinary es name new).2 name = some new := by
  constructor
  · have hhas : entriesHas es name := by
      unfold lookupEntry at hold
      cases hfind : es.find? fun e => e.1 == name with
      | none => simp [hfind] at hold
      | some e =>
        have := List.find?_some hfind
        have hmem := List.mem_of_find?_eq_some hfind
        unfold entriesHas
        exact List.any_eq_true.mpr ⟨e, hmem, this⟩
    simp [setBinary, hhas]
  · exact lookupEntry_mapSet es name new

/-- C5 amended, witness. -/
theorem c5_setBinary_overwrites_witness :
    lookupEntry [([97], [1])] [97] = some [1]
      ∧ ((setBinary [([97], [1])] [97] [2]).1 = false
          ∧ lookupEntry (setBinary [([97], [1])] [97] [2]).2 [97] = some [2]) :=
  ⟨by decide, c5_setBinary_overwrites [([97], [1])] [97] [1] [2] (by decide)⟩

/-- The eight-term or-chain produced by reading back a `writeU64` field
collapses to the four distinct byte components. -/
theorem lorBytesEq (a b c d : Nat) :
    d ||| a <<< 24 ||| b <<< 16 ||| c <<< 8 ||| d <<< 0 ||| a <<< 24 ||| b <<< 16 ||| c <<< 8
      = a <<< 24 ||| (b <<< 16 ||| (c <<< 8 ||| d)) := by
  apply Nat.eq_of_testBit_eq
  intro i
  simp only [Nat.testBit_or, Nat.shiftLeft_zero]
  cases hA : Nat.testBit (a <<< 24) i <;> cases hB : Nat.testBit (b <<< 16) i
    <;> cases hC : Nat.testBit (c <<< 8) i <;> cases hD : Nat.testBit d i
    <;> simp [hA, hB, hC, hD]

/-- Reading a `writeU64` field back at offset 0 recovers the value mod
nothing at all, provided it fits 32 bits (the source writes only the low 32
bits, twice, and the reader ors the two copies together). -/
theorem readU64_writeU64 (v : Nat) (hv : v < 2 ^ 32) (rest : Bytes) :
    readU64 (writeU64 v ++ rest) 0 = v := by
  have hv2 : v % 4294967296 = v := Nat.mod_eq_of_lt (by omega)
  have hstep : readU64 (writeU64 v ++ rest) 0
      = (v % 256) ||| (v / 2 ^ 24 % 256) <<< 24 ||| (v / 2 ^ 16 % 256) <<< 16
        ||| (v / 2 ^ 8 % 256) <<< 8 ||| (v % 256) <<< 0 ||| (v / 2 ^ 24 % 256) <<< 24
        ||| (v / 2 ^ 16 % 256) <<< 16 ||| (v / 2 ^ 8 % 256) <<< 8 := by
    simp [readU64, writeU64, jsShiftByte, List.cons_append, hv2,
      Nat.shiftRight_eq_div_pow]
  rw [hstep, lorBytesEq, Nat.shiftLeft_eq, Nat.shiftLeft_eq, Nat.shiftLeft_eq,
    Nat.mul_comm (v / 2 ^ 24 % 256), Nat.mul_comm (v / 2 ^ 16 % 256),
    Nat.mul_comm (v / 2 ^ 8 % 256),
    ← Nat.mul_add_lt_is_or (show v % 256 < 2 ^ 8 by omega),
    ← Nat.mul_add_lt_is_or
      (show 2 ^ 8 * (v / 2 ^ 8 % 256) + v % 256 < 2 ^ 16 by omega),
    ← Nat.mul_add_lt_is_or
      (show 2 ^ 16 * (v / 2 ^ 16 % 256) + (2 ^ 8 * (v / 2 ^ 8 % 256) + v % 256) < 2 ^ 24 by
        omega)]
  omega

/-- Reading a `writeU64` field back from an arbitrary position. -/
theorem readU64_at (pre : Bytes) (v : Nat) (hv : v < 2 ^ 32) (rest : Bytes) :
    readU64 (pre ++ (writeU64 v ++ rest)) pre.length = v := by
  have hget : ∀ i : Nat,
      (pre ++ (writeU64 v ++ rest)).getD (pre.length + i) 0
        = (writeU64 v ++ rest).getD i 0 := by
    intro i
    rw [List.getD_append_right pre _ 0 _ (Nat.le_add_right _ _), Nat.add_sub_cancel_left]
  have hbase := readU64_writeU64 v hv rest
  unfold readU64 at hbase ⊢
  rw [hget 7, hget 0, hget 1, hget 2, hget 3, hget 4, hget 5, hget 6]
  simpa using hbase

theorem writeU64_length (v : Nat) : (writeU64 v).length = 8 := rfl

/-- With every name within the 255-byte limit no entry is skipped, so the
blob region is exactly the concatenation of all blobs. -/
theorem keptBlobBytes_length (es : List Entry) (h : ∀ e ∈ es, e.1.length ≤ 255) :
    (keptBlobBytes es).length = blobsSize es := by
  induction es with
  | nil => simp [keptBlobBytes, blobsSize]
  | cons e rest ih =>
    obtain ⟨n, b⟩ := e
    have hn : ¬ n.length > 255 := by
      simpa using h (n, b) (List.mem_cons_self _ _)
    have hrest := ih fun f hf => h f (List.mem_cons_of_mem _ hf)
    simp [keptBlobBytes, blobsSize, hn] at hrest ⊢
    omega

/-- With no skipped entry the table-of-contents region has its full counted
size, whatever the starting cursor. -/
theorem keptTocBytes_length (es : List Entry) (c : Nat) (h : ∀ e ∈ es, e.1.length ≤ 255) :
    (keptTocBytes es c).length = entriesSize es := by
  induction es generalizing c with
  | nil => simp [keptTocBytes, entriesSize]
  | cons e rest ih =>
    obtain ⟨n, b⟩ := e
    have hn : ¬ n.length > 255 := by
      simpa using h (n, b) (List.mem_cons_self _ _)
    have hrest := ih (c + b.length) fun f hf => h f (List.mem_cons_of_mem _ hf)
    simp [keptTocBytes, entriesSize, hn, writeU64_length] at hrest ⊢
    omega

/-- `encodeAsBytes` with no oversized name: both zero paddings vanish. -/
theorem encodeAsBytes_noskip (es : List Entry) (h : ∀ e ∈ es, e.1.length ≤ 255) :
    encodeAsBytes es
      = writeU64 (blobsSize es + 8)
        ++ (keptBlobBytes es ++ (writeU64 es.length ++ keptTocBytes es 8)) := by
  unfold encodeAsBytes
  rw [keptBlobBytes_length es h, keptTocBytes_length es 8 h]
  simp [List.append_assoc]

theorem length_encodeAsBytes_noskip (es : List Entry) (h : ∀ e ∈ es, e.1.length ≤ 255) :
    (encodeAsBytes es).length = 16 + blobsSize es + entriesSize es := by
  rw [encodeAsBytes_noskip es h]
  simp [writeU64_length, keptBlobBytes_length es h, keptTocBytes_length es 8 h]
  omega

/-- Every table-of-contents record needs at least 17 bytes, so the entry
count is bounded by the region size. -/
theorem length_le_entriesSize (es : List Entry) : es.length ≤ entriesSize es := by
  induction es with
  | nil => simp [entriesSize]
  | cons e rest ih =>
    simp [entriesSize] at ih ⊢
    omega

/-- The table-of-contents reading loop of `_read`, applied to a byte string
that lays out blobs and table of contents the way `encodeAsBytes` does,
recovers exactly the encoded entries.  `pre` is everything before the blob
region (so `pre.length` is the running `binaryCursor` value `c`), `mid` is
everything between the blob region and the table of contents. -/
theorem readToc_spec (es : List Entry) (full pre mid : Bytes) (c cur : Nat)
    (hnames : ∀ e ∈ es, e.1.length ≤ 255)
    (hfull : full = pre ++ (keptBlobBytes es ++ (mid ++ keptTocBytes es c)))
    (hc : pre.length = c)
    (hcur : cur = c + blobsSize es + mid.length)
    (hbound : c + blobsSize es < 2 ^ 32) :
    readToc full cur es.length = es := by
  induction es generalizing full pre mid c cur with
  | nil => simp [readToc]
  | cons e rest ih =>
    obtain ⟨n, b⟩ := e
    have hn : ¬ n.length > 255 := by
      simpa using hnames (n, b) (List.mem_cons_self _ _)
    have hnames2 : ∀ f ∈ rest, f.1.length ≤ 255 :=
      fun f hf => hnames f (List.mem_cons_of_mem _ hf)
    have hkb : keptBlobBytes ((n, b) :: rest) = b ++ keptBlobBytes rest := by
      simp [keptBlobBytes, hn]
    have hkt : keptTocBytes ((n, b) :: rest) c
        = n.length :: (n ++ writeU64 c ++ writeU64 (c + b.length))
            ++ keptTocBytes rest (c + b.length) := by
      simp [keptTocBytes, hn]
    have hbs : blobsSize ((n, b) :: rest) = b.length + blobsSize rest := by
      simp [blobsSize]
    have hkbl : (keptBlobBytes rest).length = blobsSize rest :=
      keptBlobBytes_length rest hnames2
    -- the split of the byte string in front of the name-length byte
    have hsplit_a : full
        = ((pre ++ (b ++ keptBlobBytes rest)) ++ mid)
            ++ (n.length
              :: ((n ++ writeU64 c ++ writeU64 (c + b.length))
                  ++ keptTocBytes rest (c + b.length))) := by
      rw [hfull, hkb, hkt]
      simp [List.append_assoc]
    have hPlen : ((pre ++ (b ++ keptBlobBytes rest)) ++ mid).length = cur := by
      simp [hc, hkbl, hcur, hbs]
      omega
    have h_nl : full.getD cur 0 = n.length := by
      rw [hsplit_a, List.getD_append_right _ _ _ _ (le_of_eq hPlen), hPlen]
      simp
    -- the split in front of the name bytes
    have hsplit_b : full
        = (((pre ++ (b ++ keptBlobBytes rest)) ++ mid) ++ [n.length])
            ++ (n ++ (writeU64 c
                ++ (writeU64 (c + b.length) ++ keptTocBytes rest (c + b.length)))) := by
      rw [hfull, hkb, hkt]
      simp [List.append_assoc]
    have hQlen : ((((pre ++ (b ++ keptBlobBytes rest)) ++ mid) ++ [n.length])).length
        = cur + 1 := by
      simp [hc, hkbl, hcur, hbs]
      omega
    have h_name : (full.drop (cur + 1)).take n.length = n := by
      rw [hsplit_b, List.drop_left' hQlen, List.take_left' rfl]
    -- the split in front of the first cursor field
    have hsplit_c : full
        = ((((pre ++ (b ++ keptBlobBytes rest)) ++ mid) ++ [n.length]) ++ n)
            ++ (writeU64 c
                ++ (writeU64 (c + b.length) ++ keptTocBytes rest (c + b.length))) := by
      rw [hfull, hkb, hkt]
      simp [List.append_assoc]
    have hRlen : (((((pre ++ (b ++ keptBlobBytes rest)) ++ mid) ++ [n.length]) ++ n)).length
        = cur + 1 + n.length := by
      simp [hc, hkbl, hcur, hbs]
      omega
    have h_start : readU64 full (cur + 1 + n.length) = c := by
      rw [hsplit_c, ← hRlen]
      exact readU64_at _ c (by omega) _
    -- the split in front of the second cursor field
    have hsplit_d : full
        = (((((pre ++ (b ++ keptBlobBytes rest)) ++ mid) ++ [n.length]) ++ n)
              ++ writeU64 c)
            ++ (writeU64 (c + b.length) ++ keptTocBytes rest (c + b.length)) := by
      rw [hfull, hkb, hkt]
      simp [List.append_assoc]
    have hSlen : ((((((pre ++ (b ++ keptBlobBytes rest)) ++ mid) ++ [n.length]) ++ n)
        ++ writeU64 c)).length = cur + 1 + n.length + 8 := by
      simp [hc, hkbl, hcur, hbs, writeU64_length]
      omega
    have h_stop : readU64 full (cur + 1 + n.length + 8) = c + b.length := by
      rw [hsplit_d, ← hSlen]
      exact readU64_at _ (c + b.length) (by omega) _
    -- the blob slice
    have hsplit_e : full
        = pre ++ (b ++ (keptBlobBytes rest
            ++ (mid ++ keptTocBytes ((n, b) :: rest) c))) := by
      rw [hfull, hkb]
      simp [List.append_assoc]
    have h_blob : (full.drop c).take b.length = b := by
      rw [hsplit_e, List.drop_left' hc, List.take_left' rfl]
    -- assemble the head and recurse for the tail
    simp only [List.length_cons, readToc]
    rw [h_nl, h_start, h_stop, Nat.add_sub_cancel_left, h_name, h_blob]
    refine congrArg (List.cons (n, b)) ?_
    refine ih full (pre ++ b)
      (mid ++ (n.length :: (n ++ writeU64 c ++ writeU64 (c + b.length))))
      (c + b.length) (cur + 1 + n.length + 16) hnames2 ?_ ?_ ?_ ?_
    · rw [hfull, hkb, hkt]
      simp [List.append_assoc]
    · simp [hc]
    · simp [writeU64_length, hcur, hbs]
      omega
    · rw [hbs] at hbound
      omega

/-- Rebuilding the result `Map` by repeated `set` calls over entries with
pairwise distinct names just reproduces the list. -/
theorem foldl_mapSet_eq (l : List Entry) : ∀ acc : List Entry,
    (∀ e ∈ l, ¬ (entriesHas acc e.1 = true)) → ((l.map fun e => e.1).Nodup) →
    l.foldl (fun acc e => mapSet acc e.1 e.2) acc = acc ++ l := by
  induction l with
  | nil => intro acc _ _; simp
  | cons e rest ih =>
    intro acc hdisj hnd
    have hno : ¬ (entriesHas acc e.1 = true) := hdisj e (List.mem_cons_self _ _)
    have hset : mapSet acc e.1 e.2 = acc ++ [e] := by
      simp only [mapSet, Bool.not_eq_true] at hno ⊢
      rw [if_neg (by simp [hno])]
    simp only [List.foldl_cons, hset]
    rw [ih (acc ++ [e]) ?_ ?_]
    · simp
    · intro f hf
      have hne : ¬ f.1 = e.1 := by
        simp only [List.map_cons, List.nodup_cons] at hnd
        intro hfe
        exact hnd.1 (hfe ▸ List.mem_map_of_mem (fun x => x.1) hf)
      have hfacc : ¬ (entriesHas acc f.1 = true) := hdisj f (List.mem_cons_of_mem _ hf)
      simp only [entriesHas, List.any_append, List.any_cons, List.any_nil,
        Bool.or_eq_true, beq_iff_eq] at hfacc ⊢
      rintro (h | h)
      · exact hfacc (by simpa [entriesHas] using h)
      · simp at h
        exact hne h.symm
    · have hnd2 := hnd
      simp only [List.map_cons, List.nodup_cons] at hnd2
      exact hnd2.2

/-- C3: building a container from pairs with pairwise-distinct names of at
most 255 UTF-8 bytes, encoding it and parsing the bytes back recovers the
entries exactly — same names, byte-identical blobs (indeed the same entry
list in the same order, which implies the claimed name-set and per-name
equality).  The size bound keeps the `Nat` model faithful to the source,
whose `readU64` returns a signed 32-bit value (see `readU64`). -/
theorem btoc_roundtrip (es : List Entry)
    (hnames : ∀ e ∈ es, e.1.length ≤ 255)
    (hnodup : (es.map fun e => e.1).Nodup)
    (hsize : (encodeAsBytes es).length < 2 ^ 31) :
    fromBytes (encodeAsBytes es) = es := by
  have hlen := length_encodeAsBytes_noskip es hnames
  have hblob : blobsSize es + 8 < 2 ^ 32 := by omega
  have hcount : es.length < 2 ^ 32 := by
    have := length_le_entriesSize es
    omega
  have henc := encodeAsBytes_noskip es hnames
  have h0 : readU64 (encodeAsBytes es) 0 = blobsSize es + 8 := by
    rw [henc]
    have := readU64_at [] (blobsSize es + 8) hblob
      (keptBlobBytes es ++ (writeU64 es.length ++ keptTocBytes es 8))
    simpa using this
  have hplen : (writeU64 (blobsSize es + 8) ++ keptBlobBytes es).length
      = blobsSize es + 8 := by
    simp [writeU64_length, keptBlobBytes_length es hnames]
    omega
  have h1 : readU64 (encodeAsBytes es) (blobsSize es + 8) = es.length := by
    have hdec : writeU64 (blobsSize es + 8)
        ++ (keptBlobBytes es ++ (writeU64 es.length ++ keptTocBytes es 8))
        = (writeU64 (blobsSize es + 8) ++ keptBlobBytes es)
          ++ (writeU64 es.length ++ keptTocBytes es 8) := by
      simp [List.append_assoc]
    have hread := readU64_at (writeU64 (blobsSize es + 8) ++ keptBlobBytes es)
      es.length hcount (keptTocBytes es 8)
    rw [hplen] at hread
    rw [henc, hdec]
    exact hread
  have h2 : readEntryList (encodeAsBytes es) = es := by
    unfold readEntryList
    rw [h0, h1]
    refine readToc_spec es (encodeAsBytes es) (writeU64 (blobsSize es + 8))
      (writeU64 es.length) 8 (blobsSize es + 8 + 8) hnames ?_ (writeU64_length _) ?_ ?_
    · rw [henc]
    · simp [writeU64_length]
      omega
    · omega
  unfold fromBytes
  rw [h2]
  have := foldl_mapSet_eq es [] (by intro e _; simp [entriesHas]) hnodup
  simpa using this

/-- C3, witness: a concrete two-entry container round-trips. -/
theorem btoc_roundtrip_witness :
    (∀ e ∈ ([([97], [10, 20]), ([98, 99], [30])] : List Entry), e.1.length ≤ 255)
      ∧ ((([([97], [10, 20]), ([98, 99], [30])] : List Entry).map fun e => e.1).Nodup)
      ∧ (encodeAsBytes [([97], [10, 20]), ([98, 99], [30])]).length < 2 ^ 31
      ∧ fromBytes (encodeAsBytes [([97], [10, 20]), ([98, 99], [30])])
          = [([97], [10, 20]), ([98, 99], [30])] :=
  ⟨by decide, by decide, by decide,
    btoc_roundtrip [([97], [10, 20]), ([98, 99], [30])] (by decide) (by decide) (by decide)⟩

end Btoc

namespace Core

/-! Shallow embedding of src/modules/core.ts.

JavaScript objects compared with `===` (materials, shaders, uniform maps,
geometries) carry an object identity `oid`; reference equality is `oid`
equality.  The bind machine caches the objects it adopted; operations return
the updated argument object alongside the updated machine, mirroring the
mutation of the shared object (clearing its dirty flag).  GPU-state calls
(`gl.*`, `glVAO.*`) are recorded in an emitted `GpuCall` list; code paths
that throw (or crash on a null dereference) yield `none`. -/

namespace Gl

def FLOAT : Nat := 0x1406

def INT : Nat := 0x1404

def UNSIGNED_SHORT : Nat := 0x1403

def FLOAT_VEC2 : Nat := 0x8B50

def FLOAT_VEC3 : Nat := 0x8B51

def FLOAT_VEC4 : Nat := 0x8B52

def INT_VEC2 : Nat := 0x8B53

def INT_VEC3 : Nat := 0x8B54

def INT_VEC4 : Nat := 0x8B55

def FLOAT_MAT2 : Nat := 0x8B5A

def FLOAT_MAT3 : Nat := 0x8B5B

def FLOAT_MAT4 : Nat := 0x8B5C

def SAMPLER_2D : Nat := 0x8B5E

def TEXTURE0 : Nat := 0x84C0

def ARRAY_BUFFER : Nat := 0x8892

def ELEMENT_ARRAY_BUFFER : Nat := 0x8893

end Gl

/-- `getElementCountOfGlType` from core.ts (default branch returns 1). -/
def getElementCountOfGlType (type : Nat) : Nat :=
  if type = Gl.FLOAT ∨ type = Gl.INT then 1
  else if type = Gl.FLOAT_VEC2 ∨ type = Gl.INT_VEC2 then 2
  else if type = Gl.FLOAT_VEC3 ∨ type = Gl.INT_VEC3 then 3
  else if type = Gl.FLOAT_VEC4 ∨ type = Gl.INT_VEC4 ∨ type = Gl.FLOAT_MAT2 then 4
  else if type = Gl.FLOAT_MAT3 then 9
  else if type = Gl.FLOAT_MAT4 then 16
  else 1

/-- `isSupportedFloatType` from core.ts. -/
def isSupportedFloatType (type : Nat) : Bool :=
  type == Gl.FLOAT || type == Gl.FLOAT_VEC2 || type == Gl.FLOAT_VEC3
    || type == Gl.FLOAT_VEC4 || type == Gl.FLOAT_MAT2 || type == Gl.FLOAT_MAT3
    || type == Gl.FLOAT_MAT4

/-- `isSupportedIntType` from core.ts. -/
def isSupportedIntType (type : Nat) : Bool :=
  type == Gl.INT || type == Gl.INT_VEC2 || type == Gl.INT_VEC3 || type == Gl.INT_VEC4

/-- `getElemTypeAndCount` from core.ts: `none` models the thrown
`Type not supported` error. -/
def getElemTypeAndCount (type size : Nat) : Option (Nat × Nat) :=
  let elementCount := getElementCountOfGlType type
  let isMiscSupportedType := type == Gl.UNSIGNED_SHORT || type == Gl.SAMPLER_2D
  if isSupportedFloatType type then some (Gl.FLOAT, size * elementCount)
  else if isSupportedIntType type then some (Gl.INT, size * elementCount)
  else if isMiscSupportedType then some (type, size * elementCount)
  else none

/-- The `GlType` record. -/
structure GlType where
  type : Nat
  size : Nat
  elemType : Nat
  elemCount : Nat
deriving DecidableEq

/-- The `GlType(type, size)` constructor function. -/
def mkGlType (type size : Nat) : Option GlType :=
  (getElemTypeAndCount type size).map fun p =>
    { type := type, size := size, elemType := p.1, elemCount := p.2 }

/-- `UniformSource` from core.ts. -/
inductive UniformSource
  | MATERIAL
  | ENVIRONMENT
  | INSTANCE
deriving DecidableEq

/-- A `UniformValue`: a numeric array or a texture (by GPU handle).  The
numbers themselves are opaque payloads to every verified code path, so they
are carried as integers. -/
inductive UniformValue
  | nums (values : List Int)
  | tex (texture : Nat)
deriving DecidableEq

/-- `UniformWithValue` (an entry of a `UniformMap`). -/
structure UniformWithValue where
  name : String
  type : GlType
  value : UniformValue
deriving DecidableEq

/-- `MaterialUniform`. -/
structure MaterialUniform where
  name : String
  type : GlType
  value : UniformValue
  location : Nat
  valueSource : UniformSource
  hasBeenWritten : Bool
deriving DecidableEq

/-- A `UniformMap` object (`EnvironmentUniforms` / `InstanceUniforms`):
`oid` is the JavaScript object identity, `uniforms` the underlying `Map` in
insertion order. -/
structure UniformMap where
  oid : Nat
  uniforms : List UniformWithValue
  hasChangedSinceLastBound : Bool
deriving DecidableEq

/-- `UniformMap.tryGet`: plain name lookup.  The two `console.assert` shape
checks in the source only log; the stored value is returned regardless. -/
def UniformMap.tryGet (m : UniformMap) (u : MaterialUniform) : Option UniformValue :=
  (m.uniforms.find? fun x => x.name == u.name).map fun x => x.value

/-- A `Shader` object: linked program handle and the introspected vertex
attributes (name, type, location) in introspection order. -/
structure Shader where
  oid : Nat
  program : Nat
  vertexAttributes : List (String × GlType × Nat)
deriving DecidableEq

/-- A `Material` object. -/
structure Material where
  oid : Nat
  shader : Shader
  uniforms : List MaterialUniform
  hasChangedSinceLastBound : Bool
deriving DecidableEq

/-- `Material.setUniform`: an unknown name only warns; a known name gets the
new value, `valueSource` forced back to `MATERIAL` and `hasBeenWritten` set
(the `validateUniformWithValue` call only issues `console.assert` logs).
`Map.set` on an existing key keeps its position, rendered as an in-place
`map`. -/
def Material.setUniform (m : Material) (name : String) (value : UniformValue) : Material :=
  match m.uniforms.find? fun u => u.name == name with
  | none => m
  | some _ =>
    { m with
      uniforms := m.uniforms.map fun u =>
        if u.name == name then
          { u with
            value := value
            valueSource := UniformSource.MATERIAL
            hasBeenWritten := true }
        else u
      hasChangedSinceLastBound := true }

/-- `Material.setUniformSource`. -/
def Material.setUniformSource (m : Material) (name : String) (source : UniformSource) :
    Material :=
  match m.uniforms.find? fun u => u.name == name with
  | none => m
  | some _ =>
    { m with
      uniforms := m.uniforms.map fun u =>
        if u.name == name then { u with valueSource := source, hasBeenWritten := true }
        else u
      hasChangedSinceLastBound := true }

/-- A `VertexBuffer` object (GPU handle plus layout). -/
structure VertexBuffer where
  buffer : Nat
  bufferType : Nat
  type : GlType
  isNormalized : Bool
deriving DecidableEq

/-- A `Geometry` object. -/
structure Geometry where
  oid : Nat
  vertexBuffers : List (String × VertexBuffer)
  indexBuffer : Option Nat
deriving DecidableEq

/-- One recorded GPU-state call. -/
inductive GpuCall
  | useProgram (program : Nat)
  | uniformUpload (location : Nat) (values : List Int)
  | activeTexture (unit : Nat)
  | bindTexture (texture : Option Nat)
  | uniform1i (location : Nat) (value : Nat)
  | bindVertexArray (vao : Option Nat)
  | bindBuffer (bufferType : Nat) (buffer : Nat)
  | bufferData (bufferType : Nat)
  | enableVertexAttribArray (location : Nat)
  | vertexAttribPointer (location : Nat) (elemCount : Nat) (elemType : Nat)
      (normalized : Bool)
deriving DecidableEq

/-- The `BindMachine` state. -/
structure BindMachine where
  environment : Option UniformMap
  instanceUniforms : Option UniformMap
  shader : Option Shader
  material : Option Material
  geometry : Option Geometry
  vao : Option Nat
  wereInstanceUniformsChanged : Bool
deriving DecidableEq

/-- The freshly constructed (or `clear()`ed) bind machine. -/
def BindMachine.initial : BindMachine :=
  { environment := none, instanceUniforms := none, shader := none,
    material := none, geometry := none, vao := none,
    wereInstanceUniformsChanged := false }

/-- Reference equality of an optional cached object against an argument. -/
def oidMatches (cached : Option UniformMap) (x : UniformMap) : Bool :=
  match cached with
  | some c => c.oid == x.oid
  | none => false

/-- Reference equality of two nullable uniform-map references
(`null === null` is true). -/
def optOidEq (a b : Option UniformMap) : Bool :=
  match a, b with
  | none, none => true
  | some x, some y => x.oid == y.oid
  | _, _ => false

/-- `BindMachine.setEnvironment`. -/
def BindMachine.setEnvironment (m : BindMachine) (env : UniformMap) :
    BindMachine × UniformMap :=
  if oidMatches m.environment env && !env.hasChangedSinceLastBound then (m, env)
  else
    let env2 := { env with hasChangedSinceLastBound := false }
    ({ m with environment := some env2, material := none }, env2)

/-- `BindMachine.setInstanceUniforms`. -/
def BindMachine.setInstanceUniforms (m : BindMachine) (inst : Option UniformMap) :
    BindMachine × Option UniformMap :=
  let notDirty := match inst with
    | some i => !i.hasChangedSinceLastBound
    | none => false
  if optOidEq m.instanceUniforms inst && notDirty then (m, inst)
  else
    let inst2 := inst.map fun i => { i with hasChangedSinceLastBound := false }
    ({ m with instanceUniforms := inst2, wereInstanceUniformsChanged := true }, inst2)

/-- `BindMachine.getBestAvailableUniformValue`.  The environment parameter is
nullable at the call site (`this.environment!`); dereferencing `null` there
crashes, modelled by `none`.  The instance lookup uses optional chaining and
is null-safe.  The never-written warning and the no-sampler-instance
assertion only log. -/
def getBestAvailableUniformValue (u : MaterialUniform) (env : Option UniformMap)
    (inst : Option UniformMap) : Option UniformValue :=
  match u.valueSource with
  | UniformSource.ENVIRONMENT =>
    match env with
    | none => none
    | some e => some ((e.tryGet u).getD u.value)
  | UniformSource.INSTANCE => some (((inst.bind fun i => i.tryGet u)).getD u.value)
  | UniformSource.MATERIAL => some u.value

/-- The uniform types `_bindSimpleUniform` supports (its `switch` cases). -/
def isSimpleUploadType (t : Nat) : Bool :=
  t == Gl.FLOAT || t == Gl.FLOAT_VEC2 || t == Gl.FLOAT_VEC3 || t == Gl.FLOAT_VEC4
    || t == Gl.INT || t == Gl.INT_VEC2 || t == Gl.INT_VEC3 || t == Gl.INT_VEC4
    || t == Gl.FLOAT_MAT2 || t == Gl.FLOAT_MAT3 || t == Gl.FLOAT_MAT4

/-- `BindMachine._bindSimpleUniform`: one `gl.uniformNxv` call for a
supported type; the `default` case throws, and handing the GL binding a
texture object instead of a number array is a runtime type error. -/
def bindSimpleUniformCall (u : MaterialUniform) (value : UniformValue) : Option GpuCall :=
  if isSimpleUploadType u.type.type then
    match value with
    | UniformValue.nums vs => some (GpuCall.uniformUpload u.location vs)
    | UniformValue.tex _ => none
  else none

/-- `BindMachine._bindTextureInform`: three GPU calls. -/
def bindTextureInformCalls (u : MaterialUniform) (value : Option Nat) (textureUnit : Nat) :
    List GpuCall :=
  [GpuCall.activeTexture (Gl.TEXTURE0 + textureUnit),
   GpuCall.bindTexture value,
   GpuCall.uniform1i u.location textureUnit]

/-- `BindMachine._setShader`. -/
def setShaderStep (m : BindMachine) (s : Shader) : BindMachine × List GpuCall :=
  let same := match m.shader with
    | some cur => cur.oid == s.oid
    | none => false
  if same then (m, [])
  else ({ m with shader := some s }, [GpuCall.useProgram s.program])

/-- The partial-update loop of `setMaterial`: re-resolve and re-upload every
`INSTANCE`-sourced uniform (the sampler assertion only logs). -/
def partialUpdateCalls (inst : UniformMap) : List MaterialUniform → Option (List GpuCall)
  | [] => some []
  | u :: rest =>
    if u.valueSource == UniformSource.INSTANCE then
      match bindSimpleUniformCall u ((inst.tryGet u).getD u.value) with
      | none => none
      | some c => (partialUpdateCalls inst rest).map fun cs => c :: cs
    else partialUpdateCalls inst rest

/-- The full-update loop of `setMaterial`: resolve each uniform through the
three-source lookup; samplers claim the next texture unit, everything else
is uploaded directly. -/
def fullUpdateCalls (env inst : Option UniformMap) :
    List MaterialUniform → Nat → Option (List GpuCall)
  | [], _ => some []
  | u :: rest, textureUnit =>
    match getBestAvailableUniformValue u env inst with
    | none => none
    | some value =>
      if u.type.type == Gl.SAMPLER_2D then
        let tex := match value with
          | UniformValue.tex t => some t
          | UniformValue.nums _ => none
        (fullUpdateCalls env inst rest (textureUnit + 1)).map fun cs =>
          bindTextureInformCalls u tex textureUnit ++ cs
      else
        match bindSimpleUniformCall u value with
        | none => none
        | some c => (fullUpdateCalls env inst rest textureUnit).map fun cs => c :: cs

/-- `BindMachine.setMaterial`.  The environment assertion only logs.  The
result is the updated machine, the updated material object (its dirty flag
cleared on the full path) and the emitted GPU calls; `none` models a thrown
error. -/
def BindMachine.setMaterial (m : BindMachine) (mat : Material) :
    Option (BindMachine × Material × List GpuCall) :=
  let same := match m.material with
    | some cur => cur.oid == mat.oid
    | none => false
  if same && !mat.hasChangedSinceLastBound then
    if !m.wereInstanceUniformsChanged then some (m, mat, [])
    else
      match m.instanceUniforms with
      | none => some (m, mat, [])
      | some inst =>
        (partialUpdateCalls inst mat.uniforms).map fun cs => (m, mat, cs)
  else
    let step := setShaderStep m mat.shader
    let mat2 := { mat with hasChangedSinceLastBound := false }
    let m2 := { step.1 with material := some mat2 }
    (fullUpdateCalls m2.environment m2.instanceUniforms mat2.uniforms 0).map fun cs =>
      (m2, mat2, step.2 ++ cs)

/-- `BindMachine.setVao`. -/
def BindMachine.setVao (m : BindMachine) (vao : Option Nat) : BindMachine × List GpuCall :=
  if m.vao == vao then (m, [])
  else ({ m with geometry := none, vao := vao }, [GpuCall.bindVertexArray vao])

/-- `VertexBuffer.createBuffer`: first `bindMachine.setVao(null)`, then the
three buffer-creating GL calls (`createBuffer` allocates `newHandle`).  Only
`setVao` touches the cached machine state. -/
def createBufferStep (m : BindMachine) (bufferType newHandle : Nat) :
    BindMachine × List GpuCall :=
  let step := m.setVao none
  (step.1, step.2 ++ [GpuCall.bindBuffer bufferType newHandle, GpuCall.bufferData bufferType])

/-- `BindMachine._setGeometry`: requires a bound shader (a null shader
crashes on the attribute iteration); binds the index buffer if present and
wires every shader attribute that has a same-named geometry buffer (a
missing buffer only warns and is skipped; the type asserts only log). -/
def BindMachine.bindGeometry (m : BindMachine) (g : Geometry) :
    Option (BindMachine × List GpuCall) :=
  match m.shader with
  | none => none
  | some shader =>
    let indexCalls := match g.indexBuffer with
      | some buf => [GpuCall.bindBuffer Gl.ELEMENT_ARRAY_BUFFER buf]
      | none => []
    let attribCalls := shader.vertexAttributes.foldr
      (fun attr acc =>
        match g.vertexBuffers.find? fun vb => vb.1 == attr.1 with
        | none => acc
        | some vb =>
          GpuCall.enableVertexAttribArray attr.2.2
            :: GpuCall.bindBuffer vb.2.bufferType vb.2.buffer
            :: GpuCall.vertexAttribPointer attr.2.2 attr.2.1.elemCount attr.2.1.elemType
                vb.2.isNormalized
            :: acc)
      []
    some ({ m with geometry := some g }, indexCalls ++ attribCalls)

/-- `BindMachine.setGeometryWithoutVao`. -/
def BindMachine.setGeometryWithoutVao (m : BindMachine) (g : Geometry) :
    Option (BindMachine × List GpuCall) :=
  let same := match m.geometry with
    | some cur => cur.oid == g.oid
    | none => false
  if same then some (m, [])
  else
    (BindMachine.bindGeometry { m with vao := none } g).map fun p =>
      (p.1, GpuCall.bindVertexArray none :: p.2)

/-- `BindMachine.createVao`: invalidates the material, activates the fresh
VAO handle, binds shader and geometry into it. -/
def BindMachine.createVao (m : BindMachine) (g : Geometry) (shader : Shader)
    (newVao : Nat) : Option (BindMachine × List GpuCall) :=
  let m0 := { m with material := (none : Option Material) }
  let step1 := m0.setVao (some newVao)
  let step2 := setShaderStep step1.1 shader
  (step2.1.bindGeometry g).map fun p => (p.1, step1.2 ++ step2.2 ++ p.2)

/-- C6: the three-source resolution of an `ENVIRONMENT`-sourced uniform:
with no same-named entry in the bound environment map it returns the
material's stored value; with a same-named entry of matching element type
and element count it returns the environment value. -/
theorem c6_environment_fallback (u : MaterialUniform) (env : UniformMap)
    (inst : Option UniformMap) (e : UniformWithValue) (v1 : UniformValue)
    (hsrc : u.valueSource = UniformSource.ENVIRONMENT) :
    ((env.uniforms.find? fun x => x.name == u.name) = none →
      getBestAvailableUniformValue u (some env) inst = some u.value)
    ∧ ((env.uniforms.find? fun x => x.name == u.name) = some e →
        e.type.elemType = u.type.elemType → e.type.elemCount = u.type.elemCount →
        e.value = v1 →
        getBestAvailableUniformValue u (some env) inst = some v1) := by
  constructor
  · intro hnone
    simp [getBestAvailableUniformValue, hsrc, UniformMap.tryGet, hnone]
  · intro hfind _ _ hval
    simp [getBestAvailableUniformValue, hsrc, UniformMap.tryGet, hfind, hval]

def c6type : GlType :=
  { type := Gl.FLOAT_VEC3, size := 1, elemType := Gl.FLOAT, elemCount := 3 }

def c6u : MaterialUniform :=
  { name := "color", type := c6type, value := UniformValue.nums [1, 2, 3],
    location := 5, valueSource := UniformSource.ENVIRONMENT, hasBeenWritten := true }

def c6entry : UniformWithValue :=
  { name := "color", type := c6type, value := UniformValue.nums [4, 5, 6] }

def c6envEmpty : UniformMap :=
  { oid := 0, uniforms := [], hasChangedSinceLastBound := false }

def c6envFull : UniformMap :=
  { oid := 1, uniforms := [c6entry], hasChangedSinceLastBound := false }

/-- C6, witness: both branches at concrete inputs. -/
theorem c6_environment_fallback_witness :
    getBestAvailableUniformValue c6u (some c6envEmpty) none
        = some (UniformValue.nums [1, 2, 3])
      ∧ getBestAvailableUniformValue c6u (some c6envFull) none
        = some (UniformValue.nums [4, 5, 6]) :=
  ⟨(c6_environment_fallback c6u c6envEmpty none c6entry (UniformValue.nums [4, 5, 6])
      rfl).1 (by decide),
   (c6_environment_fallback c6u c6envFull none c6entry (UniformValue.nums [4, 5, 6])
      rfl).2 (by decide) (by decide) (by decide) (by decide)⟩

/-- A name-keyed in-place update leaves `find?` pointing at the updated
entry, provided the update preserves the name. -/
theorem find?_name_map (l : List MaterialUniform) (name : String)
    (g : MaterialUniform → MaterialUniform) (hg : ∀ u, (g u).name = u.name)
    (u0 : MaterialUniform)
    (hfind : l.find? (fun u => u.name == name) = some u0) :
    (l.map fun u => if u.name == name then g u else u).find? (fun u => u.name == name)
      = some (g u0) := by
  induction l with
  | nil => simp at hfind
  | cons x rest ih =>
    cases hx : (x.name == name) with
    | true =>
      have hx0 : x = u0 := by
        rw [List.find?_cons, hx] at hfind
        exact Option.some.inj hfind
      subst hx0
      have hgx : ((g x).name == name) = true := by rw [hg x]; exact hx
      rw [List.map_cons, if_pos hx, List.find?_cons, hgx]
    | false =>
      have hfind2 : rest.find? (fun u => u.name == name) = some u0 := by
        rw [List.find?_cons, hx] at hfind
        exact hfind
      rw [List.map_cons, if_neg (by simp [hx]), List.find?_cons, hx]
      exact ih hfind2

/-- C9: `setUniform` on a present uniform name forces `valueSource` back to
`MATERIAL` and sets `hasBeenWritten`, even right after `setUniformSource`
selected the `ENVIRONMENT` or `INSTANCE` source for that uniform. -/
theorem c9_setUniform_forces_material_source (m : Material) (name : String)
    (src : UniformSource) (value : UniformValue) (u0 : MaterialUniform)
    (hfind : m.uniforms.find? (fun u => u.name == name) = some u0) :
    ∃ u, ((m.setUniformSource name src).setUniform name value).uniforms.find?
          (fun x => x.name == name) = some u
      ∧ u.valueSource = UniformSource.MATERIAL ∧ u.hasBeenWritten = true := by
  have h1 := find?_name_map m.uniforms name
    (fun u => { u with valueSource := src, hasBeenWritten := true }) (fun _ => rfl)
    u0 hfind
  unfold Material.setUniformSource
  rw [hfind]
  unfold Material.setUniform
  simp only
  rw [h1]
  exact ⟨_, find?_name_map _ name
    (fun u => { u with value := value, valueSource := UniformSource.MATERIAL, hasBeenWritten := true })
    (fun _ => rfl) _ h1, rfl, rfl⟩

def c9mat : Material :=
  { oid := 0, shader := { oid := 0, program := 1, vertexAttributes := [] },
    uniforms := [c6u], hasChangedSinceLastBound := false }

/-- C9, witness. -/
theorem c9_setUniform_forces_material_source_witness :
    c9mat.uniforms.find? (fun u => u.name == "color") = some c6u
      ∧ ∃ u, ((c9mat.setUniformSource "color" UniformSource.INSTANCE).setUniform "color"
            (UniformValue.nums [7, 8, 9])).uniforms.find? (fun x => x.name == "color")
          = some u
        ∧ u.valueSource = UniformSource.MATERIAL ∧ u.hasBeenWritten = true :=
  ⟨by decide, c9_setUniform_forces_material_source c9mat "color" UniformSource.INSTANCE
    (UniformValue.nums [7, 8, 9]) c6u (by decide)⟩

/-- A material with no `INSTANCE`-sourced uniform makes the partial-update
loop a no-op. -/
theorem partialUpdateCalls_of_filter_nil (inst : UniformMap)
    (us : List MaterialUniform)
    (h : us.filter (fun x => x.valueSource == UniformSource.INSTANCE) = []) :
    partialUpdateCalls inst us = some [] := by
  induction us with
  | nil => rfl
  | cons u rest ih =>
    by_cases hu : (u.valueSource == UniformSource.INSTANCE) = true
    · simp [List.filter_cons, hu] at h
    · simp only [List.filter_cons, hu, if_false] at h
      simp [partialUpdateCalls, hu, ih h]

/-- A material whose only `INSTANCE`-sourced uniform is `u` makes the
partial-update loop emit exactly the one re-upload of `u`. -/
theorem partialUpdateCalls_single (inst : UniformMap) (us : List MaterialUniform)
    (u : MaterialUniform) (v1 : List Int)
    (hfilter : us.filter (fun x => x.valueSource == UniformSource.INSTANCE) = [u])
    (hsimple : isSimpleUploadType u.type.type = true)
    (hval : inst.tryGet u = some (UniformValue.nums v1)) :
    partialUpdateCalls inst us = some [GpuCall.uniformUpload u.location v1] := by
  induction us with
  | nil => simp at hfilter
  | cons x rest ih =>
    by_cases hx : (x.valueSource == UniformSource.INSTANCE) = true
    · simp only [List.filter_cons, hx, if_true, List.cons.injEq] at hfilter
      obtain ⟨rfl, hrest⟩ := hfilter
      simp [partialUpdateCalls, hx, hval, bindSimpleUniformCall, hsimple,
        partialUpdateCalls_of_filter_nil inst rest hrest]
    · simp only [List.filter_cons, hx, if_false] at hfilter
      simp [partialUpdateCalls, hx, ih hfilter]

/-- C2: after a material is fully bound and an instance-uniforms map is
adopted whose same-named, same-shaped entry gives the material's single
`INSTANCE`-sourced uniform `u` a new value `v1`, the next `setMaterial` with
the same material object uploads exactly `u`'s new value — one
uniform-upload call, no shader bind, no texture bind. -/
theorem c2_partial_update (s : BindMachine) (mat : Material) (inst : UniformMap)
    (u : MaterialUniform) (v1 : List Int)
    (hcur : s.material = some mat)
    (hclean : mat.hasChangedSinceLastBound = false)
    (hfilter : mat.uniforms.filter (fun x => x.valueSource == UniformSource.INSTANCE)
        = [u])
    (hdirty : inst.hasChangedSinceLastBound = true)
    (hsimple : isSimpleUploadType u.type.type = true)
    (hval : inst.tryGet u = some (UniformValue.nums v1)) :
    ((s.setInstanceUniforms (some inst)).1).setMaterial mat
      = some ((s.setInstanceUniforms (some inst)).1, mat,
          [GpuCall.uniformUpload u.location v1]) := by
  have hs2 : (s.setInstanceUniforms (some inst)).1
      = { s with
          instanceUniforms := some { inst with hasChangedSinceLastBound := false }
          wereInstanceUniformsChanged := true } := by
    simp [BindMachine.setInstanceUniforms, hdirty]
  have htry : UniformMap.tryGet { inst with hasChangedSinceLastBound := false } u
      = some (UniformValue.nums v1) := hval
  rw [hs2]
  unfold BindMachine.setMaterial
  simp [hcur, hclean, partialUpdateCalls_single _ _ u v1 hfilter hsimple htry]

def c2inst : UniformMap :=
  { oid := 3,
    uniforms := [{ name := "world", type := c6type, value := UniformValue.nums [9, 9, 9] }],
    hasChangedSinceLastBound := true }

def c2u : MaterialUniform :=
  { name := "world", type := c6type, value := UniformValue.nums [0, 0, 0],
    location := 7, valueSource := UniformSource.INSTANCE, hasBeenWritten := true }

def c2mat : Material :=
  { oid := 1, shader := { oid := 0, program := 1, vertexAttributes := [] },
    uniforms := [c2u], hasChangedSinceLastBound := false }

def c2state : BindMachine :=
  { environment := some c6envEmpty, instanceUniforms := none,
    shader := some { oid := 0, program := 1, vertexAttributes := [] },
    material := some c2mat, geometry := none, vao := none,
    wereInstanceUniformsChanged := false }

/-- C2, witness. -/
theorem c2_partial_update_witness :
    c2state.material = some c2mat
      ∧ ((c2state.setInstanceUniforms (some c2inst)).1).setMaterial c2mat
        = some ((c2state.setInstanceUniforms (some c2inst)).1, c2mat,
            [GpuCall.uniformUpload 7 [9, 9, 9]]) :=
  ⟨by decide, c2_partial_update c2state c2mat c2inst c2u [9, 9, 9] (by decide) (by decide)
    (by decide) (by decide) (by decide) (by decide)⟩

/-- The texture-unit assignments recorded in a call list: `gl.uniform1i` is
issued only by `_bindTextureInform`, pairing a sampler location with its
texture unit. -/
def textureAssignments (calls : List GpuCall) : List (Nat × Nat) :=
  calls.filterMap fun c =>
    match c with
    | GpuCall.uniform1i loc unit => some (loc, unit)
    | _ => none

/-- An upload produced by `_bindSimpleUniform` is a `uniformUpload` call. -/
theorem bindSimpleUniformCall_shape (u : MaterialUniform) (value : UniformValue)
    (c : GpuCall) (h : bindSimpleUniformCall u value = some c) :
    ∃ vs, c = GpuCall.uniformUpload u.location vs := by
  unfold bindSimpleUniformCall at h
  by_cases hs : isSimpleUploadType u.type.type = true
  · rw [if_pos hs] at h
    cases value with
    | nums vs => exact ⟨vs, (Option.some.inj h).symm⟩
    | tex t => simp at h
  · rw [if_neg hs] at h
    simp at h

/-- `_bindTextureInform` contributes exactly one texture-unit assignment. -/
theorem textureAssignments_bindTexture_append (u : MaterialUniform) (t : Option Nat)
    (n : Nat) (cs2 : List GpuCall) :
    textureAssignments (bindTextureInformCalls u t n ++ cs2)
      = (u.location, n) :: textureAssignments cs2 := by
  simp [textureAssignments, bindTextureInformCalls]

/-- A plain uniform upload carries no texture-unit assignment. -/
theorem textureAssignments_uniformUpload_cons (loc : Nat) (vs : List Int)
    (cs : List GpuCall) :
    textureAssignments (GpuCall.uniformUpload loc vs :: cs) = textureAssignments cs := by
  simp [textureAssignments]

/-- `textureAssignments` distributes over concatenation. -/
theorem textureAssignments_append (a b : List GpuCall) :
    textureAssignments (a ++ b) = textureAssignments a ++ textureAssignments b := by
  simp [textureAssignments]

/-- The full-update loop assigns texture units sequentially from the loop
counter, in uniform-map iteration order, to exactly the sampler-typed
uniforms. -/
theorem textureAssignments_fullUpdate (env inst : Option UniformMap) :
    ∀ (us : List MaterialUniform) (n : Nat) (cs : List GpuCall),
      fullUpdateCalls env inst us n = some cs →
      textureAssignments cs
        = ((us.filter fun u => u.type.type == Gl.SAMPLER_2D).enumFrom n).map
            fun p => (p.2.location, p.1) := by
  intro us
  induction us with
  | nil =>
    intro n cs h
    simp only [fullUpdateCalls] at h
    simp [← Option.some.inj h, textureAssignments]
  | cons u rest ih =>
    intro n cs h
    unfold fullUpdateCalls at h
    cases hbest : getBestAvailableUniformValue u env inst with
    | none => rw [hbest] at h; simp at h
    | some value =>
      rw [hbest] at h
      clear hbest
      cases hs : (u.type.type == Gl.SAMPLER_2D) with
      | true =>
        rw [hs] at h
        cases value with
        | nums vs =>
          replace h : Option.map (fun cs => bindTextureInformCalls u none n ++ cs)
              (fullUpdateCalls env inst rest (n + 1)) = some cs := h
          cases hrec : fullUpdateCalls env inst rest (n + 1) with
          | none => rw [hrec] at h; simp at h
          | some cs2 =>
            rw [hrec] at h
            have hcs : bindTextureInformCalls u none n ++ cs2 = cs := Option.some.inj h
            rw [← hcs, textureAssignments_bindTexture_append, ih (n + 1) cs2 hrec]
            simp [List.filter_cons, hs]
        | tex t =>
          replace h : Option.map (fun cs => bindTextureInformCalls u (some t) n ++ cs)
              (fullUpdateCalls env inst rest (n + 1)) = some cs := h
          cases hrec : fullUpdateCalls env inst rest (n + 1) with
          | none => rw [hrec] at h; simp at h
          | some cs2 =>
            rw [hrec] at h
            have hcs : bindTextureInformCalls u (some t) n ++ cs2 = cs := Option.some.inj h
            rw [← hcs, textureAssignments_bindTexture_append, ih (n + 1) cs2 hrec]
            simp [List.filter_cons, hs]
      | false =>
        rw [hs] at h
        replace h : (match bindSimpleUniformCall u value with
            | none => none
            | some c => Option.map (fun cs => c :: cs) (fullUpdateCalls env inst rest n))
            = some cs := h
        cases hbind : bindSimpleUniformCall u value with
        | none => rw [hbind] at h; simp at h
        | some c =>
          rw [hbind] at h
          cases hrec : fullUpdateCalls env inst rest n with
          | none =>
            rw [hrec] at h
            simp at h
          | some cs2 =>
            rw [hrec] at h
            have hcs : c :: cs2 = cs := Option.some.inj h
            obtain ⟨vs, rfl⟩ := bindSimpleUniformCall_shape u value c hbind
            rw [← hcs, textureAssignments_uniformUpload_cons, ih n cs2 hrec]
            simp [List.filter_cons, hs]

/-- Helper: the shader-bind step never issues a texture-unit upload. -/
theorem textureAssignments_setShaderStep (m : BindMachine) (s : Shader) :
    textureAssignments (setShaderStep m s).2 = [] := by
  unfold setShaderStep
  by_cases h : (match m.shader with
    | some cur => cur.oid == s.oid
    | none => false) = true
  · simp [h, textureAssignments]
  · simp [h, textureAssignments]

/-- `_setShader` leaves the cached environment untouched. -/
theorem setShaderStep_environment (m : BindMachine) (s : Shader) :
    (setShaderStep m s).1.environment = m.environment := by
  unfold setShaderStep
  split <;> (dsimp only; split <;> rfl)

/-- `_setShader` leaves the cached instance uniforms untouched. -/
theorem setShaderStep_instanceUniforms (m : BindMachine) (s : Shader) :
    (setShaderStep m s).1.instanceUniforms = m.instanceUniforms := by
  unfold setShaderStep
  split <;> (dsimp only; split <;> rfl)

/-- C7: on every full material bind, the texture-bind sequence assigns unit
numbers `0, 1, 2, …` in the material's uniform-map iteration order to
exactly the sampler-typed uniforms; the assignment is a function of the
material alone, so any two full binds of the same material agree. -/
theorem c7_texture_units (m : BindMachine) (mat : Material)
    (res : BindMachine × Material × List GpuCall)
    (hfull : (match m.material with
        | some cur => cur.oid == mat.oid
        | none => false) = false ∨ mat.hasChangedSinceLastBound = true)
    (hrun : m.setMaterial mat = some res) :
    textureAssignments res.2.2
      = ((mat.uniforms.filter fun u => u.type.type == Gl.SAMPLER_2D).enumFrom 0).map
          fun p => (p.2.location, p.1) := by
  simp only [BindMachine.setMaterial] at hrun
  have hcond : ((match m.material with
      | some cur => cur.oid == mat.oid
      | none => false) && !mat.hasChangedSinceLastBound) = false := by
    rcases hfull with h | h
    · simp [h]
    · simp [h]
  rw [hcond, if_neg Bool.false_ne_true] at hrun
  rw [setShaderStep_environment, setShaderStep_instanceUniforms] at hrun
  cases hfu : fullUpdateCalls m.environment m.instanceUniforms mat.uniforms 0 with
  | none =>
    rw [hfu] at hrun
    simp at hrun
  | some cs =>
    rw [hfu] at hrun
    rw [← Option.some.inj hrun]
    dsimp only
    rw [textureAssignments_append, textureAssignments_setShaderStep,
      textureAssignments_fullUpdate m.environment m.instanceUniforms mat.uniforms 0 cs hfu]
    simp

def c7colorTexture : MaterialUniform :=
  { name := "color_texture",
    type := { type := Gl.SAMPLER_2D, size := 1, elemType := Gl.SAMPLER_2D, elemCount := 1 },
    value := UniformValue.tex 21, location := 4,
    valueSource := UniformSource.MATERIAL, hasBeenWritten := true }

def c7color : MaterialUniform :=
  { name := "color", type := c6type, value := UniformValue.nums [1, 1, 1],
    location := 5, valueSource := UniformSource.MATERIAL, hasBeenWritten := true }

def c7maskTexture : MaterialUniform :=
  { name := "mask_texture",
    type := { type := Gl.SAMPLER_2D, size := 1, elemType := Gl.SAMPLER_2D, elemCount := 1 },
    value := UniformValue.tex 22, location := 6,
    valueSource := UniformSource.MATERIAL, hasBeenWritten := true }

def c7mat : Material :=
  { oid := 1, shader := { oid := 0, program := 1, vertexAttributes := [] },
    uniforms := [c7colorTexture, c7color, c7maskTexture],
    hasChangedSinceLastBound := false }

def c7state : BindMachine :=
  { environment := some c6envEmpty, instanceUniforms := none, shader := none,
    material := none, geometry := none, vao := none,
    wereInstanceUniformsChanged := false }

def c7res : BindMachine × Material × List GpuCall :=
  (c7state.setMaterial c7mat).getD (c7state, c7mat, [])

/-- C7, witness: the sampler/vec3/sampler material gets `color_texture`
(location 4) on unit 0 and `mask_texture` (location 6) on unit 1. -/
theorem c7_texture_units_witness :
    ((match c7state.material with
        | some cur => cur.oid == c7mat.oid
        | none => false) = false ∨ c7mat.hasChangedSinceLastBound = true)
      ∧ c7state.setMaterial c7mat = some c7res
      ∧ textureAssignments c7res.2.2
          = ((c7mat.uniforms.filter fun u => u.type.type == Gl.SAMPLER_2D).enumFrom 0).map
              (fun p => (p.2.location, p.1))
      ∧ textureAssignments c7res.2.2 = [(4, 0), (6, 1)] :=
  ⟨by decide, by decide,
    c7_texture_units c7state c7mat c7res (by decide) (by decide), by decide⟩

def c1u : MaterialUniform :=
  { name := "world", type := { type := Gl.FLOAT, size := 1, elemType := Gl.FLOAT, elemCount := 1 },
    value := UniformValue.nums [0], location := 3,
    valueSource := UniformSource.INSTANCE, hasBeenWritten := true }

def c1mat : Material :=
  { oid := 1, shader := { oid := 0, program := 7, vertexAttributes := [] },
    uniforms := [c1u], hasChangedSinceLastBound := false }

def c1env : UniformMap := { oid := 2, uniforms := [], hasChangedSinceLastBound := false }

def c1inst : UniformMap := { oid := 3, uniforms := [], hasChangedSinceLastBound := false }

/-- The failing history for C1: set an environment, adopt an instance-uniforms
map, fully bind the material once. -/
def c1FirstBind : Option (BindMachine × Material × List GpuCall) :=
  (((BindMachine.initial.setEnvironment c1env).1.setInstanceUniforms (some c1inst)).1).setMaterial
    c1mat

/-- The GPU calls of the immediately repeated `setMaterial` with the same,
clean material object and no intervening call. -/
def c1SecondCalls : Option (List GpuCall) :=
  c1FirstBind.bind fun p => (p.1.setMaterial p.2.1).map fun q => q.2.2

/-- C1: refuted on the code.  `wereInstanceUniformsChanged` is set by
`setInstanceUniforms` and never reset, so once an instance-uniforms map was
adopted, every repeated `setMaterial` with the unchanged current material
re-uploads all `INSTANCE`-sourced uniforms: the second call of this history
issues one uniform-upload GPU call, not zero. -/
theorem c1_second_bind_not_free :
    c1SecondCalls = some [GpuCall.uniformUpload 3 [0]]
      ∧ some [GpuCall.uniformUpload 3 [0]] ≠ some ([] : List GpuCall) :=
  ⟨by decide, by decide⟩

/-- C10 amended: `createBuffer` always leaves the cached vao `null`, and when
a VAO was actually bound it unbinds it and clears the cached geometry; but
when the cached vao was already `null` the `setVao(null)` call returns
immediately and the machine state — the cached geometry reference included —
is unchanged. -/
theorem c10_createBuffer_vao_state (m : BindMachine) (bufferType newHandle : Nat) :
    ((createBufferStep m bufferType newHandle).1.vao = none)
      ∧ (m.vao ≠ none →
          (createBufferStep m bufferType newHandle).1.geometry = none
            ∧ GpuCall.bindVertexArray none ∈ (createBufferStep m bufferType newHandle).2)
      ∧ (m.vao = none → (createBufferStep m bufferType newHandle).1 = m) := by
  unfold createBufferStep BindMachine.setVao
  by_cases h : m.vao = none
  · have hb : (m.vao == none) = true := by rw [h]; rfl
    simp [hb, h]
  · have hb : (m.vao == none) = false := by
      cases hv : m.vao with
      | none => exact absurd hv h
      | some v => rfl
    simp [hb, h]

def c10sh : Shader := { oid := 0, program := 1, vertexAttributes := [] }

def c10g1 : Geometry := { oid := 10, vertexBuffers := [], indexBuffer := none }

def c10g2 : Geometry := { oid := 11, vertexBuffers := [], indexBuffer := none }

/-- A reachable pre-state for the C10 counterexample: create a VAO for one
geometry, then bind another geometry without a VAO (which nulls the cached
vao while caching the geometry), then create a buffer. -/
def c10Run : Option BindMachine :=
  (BindMachine.initial.createVao c10g1 c10sh 100).bind fun p =>
    (p.1.setGeometryWithoutVao c10g2).map fun q =>
      (createBufferStep q.1 Gl.ARRAY_BUFFER 5).1

/-- C10 counterexample: after `setGeometryWithoutVao` the machine has
`vao = null` and a cached geometry; the buffer creation that follows calls
`setVao(null)`, which returns immediately, so the cached geometry reference
is NOT cleared — contradicting the claim. -/
theorem c10_counterexample :
    c10Run.map (fun m => m.geometry) = some (some c10g2)
      ∧ some (some c10g2) ≠ some (none : Option Geometry) :=
  ⟨by decide, by decide⟩

def c10m : BindMachine :=
  { environment := none, instanceUniforms := none, shader := none,
    material := none, geometry := some c10g1, vao := some 3,
    wereInstanceUniformsChanged := false }

/-- C10 amended, witness. -/
theorem c10_createBuffer_vao_state_witness :
    c10m.vao ≠ none
      ∧ (createBufferStep c10m Gl.ARRAY_BUFFER 5).1.vao = none
      ∧ ((createBufferStep c10m Gl.ARRAY_BUFFER 5).1.geometry = none
          ∧ GpuCall.bindVertexArray none ∈ (createBufferStep c10m Gl.ARRAY_BUFFER 5).2) :=
  ⟨by decide, (c10_createBuffer_vao_state c10m Gl.ARRAY_BUFFER 5).1,
    (c10_createBuffer_vao_state c10m Gl.ARRAY_BUFFER 5).2.1 (by decide)⟩

end Core

namespace MeshCodec

/-! Shallow embedding of the Mesh Codec geometry path
(`BtocMeshWriter.addGeometry` / `addIndexBuffer` / `addVertexBuffer` and
`BtocMeshReader._loadGeometry` / `gatherVertexBufferData`).

Buffer elements are carried as their 32-bit patterns: `Int32Array` holds the
two's-complement pattern of each (truncated) number and `Float32Array` the
IEEE-754 binary32 pattern, and both lay elements out as 4 little-endian bytes
— the codec only moves these patterns, it never computes with them.  Index
elements are the 16-bit values of a `Uint16Array`, 2 little-endian bytes
each. -/

/-- The UTF-8 bytes of a codec key string.  Every key the codec builds
(`geometries[i].indices`, `geometries[i].attributes["name"]`, `root`) is
ASCII here, where the UTF-8 encoding is one byte per code point. -/
def strBytes (s : String) : List Nat := s.data.map Char.toNat

/-- `BtocMeshReader.getIndicesBufferName`. -/
def getIndicesBufferName (geometryId : Nat) : String :=
  "geometries[" ++ toString geometryId ++ "].indices"

/-- `BtocMeshReader.getVertexBufferName`. -/
def getVertexBufferName (geometryId : Nat) (attributeName : String) : String :=
  "geometries[" ++ toString geometryId ++ "].attributes[\"" ++ attributeName ++ "\"]"

/-- The bytes of `new Uint8Array(new Uint16Array(numbers).buffer)`: each
element truncated to 16 bits, two bytes little-endian. -/
def encodeU16List : List Nat → List Nat
  | [] => []
  | n :: rest => n % 256 :: n / 256 % 256 :: encodeU16List rest

/-- `Array.from(new Uint16Array(bytes.buffer))`: 2-byte little-endian
elements (the verified blobs always have even length; a `Uint16Array` view
over an odd-length buffer would throw). -/
def decodeU16List : List Nat → List Nat
  | b0 :: b1 :: rest => (b0 + 256 * b1) :: decodeU16List rest
  | _ => []

/-- The bytes of `new Uint8Array(new Int32Array(numbers).buffer)` or
`new Uint8Array(new Float32Array(numbers).buffer)`: each element's 32-bit
pattern as four little-endian bytes. -/
def encodeU32List : List Nat → List Nat
  | [] => []
  | w :: rest =>
    w % 256 :: w / 256 % 256 :: w / 65536 % 256 :: w / 16777216 % 256 :: encodeU32List rest

/-- `Array.from(new Int32Array(bytes.buffer))` respectively
`Array.from(new Float32Array(bytes.buffer))`: 4-byte little-endian
elements. -/
def decodeU32List : List Nat → List Nat
  | b0 :: b1 :: b2 :: b3 :: rest =>
    (b0 + 256 * b1 + 65536 * b2 + 16777216 * b3) :: decodeU32List rest
  | _ => []

/-- One geometry record of the scene-description side table. -/
structure GeometryData where
  attributes : List (String × Nat × Option Bool)
deriving DecidableEq

/-- The scene-description record, restricted to the geometry table: the
nodes, meshes, materials and textures tables the writer also keeps are never
consulted by the geometry path verified here.  `finish()` stores this record
as JSON text under the key `root` and the reader parses that text back;
on this record (strings, integers, booleans, arrays) `JSON.parse` inverts
`JSON.stringify` exactly, so the reader starts from the same record. -/
structure SceneData where
  geometries : List GeometryData
deriving DecidableEq

/-- `BtocMeshWriter.addGeometry`. -/
def addGeometry (d : SceneData) (attributes : List (String × Nat × Option Bool)) :
    SceneData :=
  { d with geometries := d.geometries ++ [{ attributes := attributes }] }

/-- `BtocMeshWriter.addIndexBuffer`. -/
def addIndexBuffer (btoc : List Btoc.Entry) (geometryId : Nat) (numbers : List Nat) :
    Bool × List Btoc.Entry :=
  Btoc.setBinary btoc (strBytes (getIndicesBufferName geometryId)) (encodeU16List numbers)

/-- `BtocMeshWriter.addVertexBuffer`: the `isSupportedIntType` and
`isSupportedFloatType` branches differ only in which typed array converts
the numbers (`Int32Array` versus `Float32Array`); both store the elements as
their 32-bit patterns, 4 little-endian bytes each, so the stored blob is the
same function of the patterns (an unsupported type only logs an assertion
and falls through to the float branch). -/
def addVertexBuffer (btoc : List Btoc.Entry) (geometryId : Nat) (attributeName : String)
    (type : Nat) (words : List Nat) : Bool × List Btoc.Entry :=
  Btoc.setBinary btoc (strBytes (getVertexBufferName geometryId attributeName))
    (encodeU32List words)

/-- The result of `VertexBuffer.from` on reader data, minus the GPU handle:
type descriptor, normalization flag (`!!isNormalized`) and element words. -/
structure LoadedBuffer where
  type : Core.GlType
  isNormalized : Bool
  data : List Nat
deriving DecidableEq

/-- The `Geometry` the reader constructs, element words in place of GPU
buffers. -/
structure LoadedGeometry where
  vertexCount : Nat
  vertexBuffers : List (String × LoadedBuffer)
  indexCount : Option Nat
  indexData : Option (List Nat)
deriving DecidableEq

/-- `BtocMeshReader.gatherVertexBufferData` followed by the
`VertexBuffer.from` of `_loadGeometry`: a missing container entry crashes
(`getBinary` returns `undefined`), an unsupported GL type makes the
`GlType` constructor throw. -/
def gatherVertexBufferData (btoc : List Btoc.Entry) (geometryId : Nat) (name : String)
    (type : Nat) (isNormalized : Option Bool) : Option LoadedBuffer :=
  match Btoc.lookupEntry btoc (strBytes (getVertexBufferName geometryId name)) with
  | none => none
  | some bytes =>
    (Core.mkGlType type 1).map fun t =>
      { type := t, isNormalized := isNormalized.getD false, data := decodeU32List bytes }

/-- The `geometry.attributes.map` loop of `_loadGeometry`. -/
def loadAttributes (btoc : List Btoc.Entry) (geometryId : Nat) :
    List (String × Nat × Option Bool) → Option (List (String × LoadedBuffer))
  | [] => some []
  | (name, type, isNorm) :: rest =>
    match gatherVertexBufferData btoc geometryId name type isNorm with
    | none => none
    | some buf => (loadAttributes btoc geometryId rest).map fun bufs => (name, buf) :: bufs

/-- `BtocMeshReader._loadGeometry`.  `vertexCount` is computed from the
first attribute (`data.length / elemCount`; the source only
`console.assert`s that later attributes agree); a geometry record without
attributes throws; the `[]` branch of the `match` below is unreachable since
the attribute list was just checked to be nonempty. -/
def loadGeometry (scene : SceneData) (btoc : List Btoc.Entry) (geometryId : Nat) :
    Option LoadedGeometry :=
  match scene.geometries.get? geometryId with
  | none => none
  | some geometry =>
    let indicesName := strBytes (getIndicesBufferName geometryId)
    let indexList : Option (List Nat) :=
      if Btoc.entriesHas btoc indicesName then
        (Btoc.lookupEntry btoc indicesName).map decodeU16List
      else none
    let indexCount := indexList.map List.length
    if geometry.attributes.length == 0 then none
    else
      (loadAttributes btoc geometryId geometry.attributes).map fun bufs =>
        { vertexCount := match bufs with
            | [] => 0
            | b :: _ => b.2.data.length / b.2.type.elemCount
          vertexBuffers := bufs
          indexCount := indexCount
          indexData := indexList }

/-- Decoding inverts encoding for 32-bit element words. -/
theorem decodeU32_encodeU32 (ws : List Nat) (h : ∀ w ∈ ws, w < 2 ^ 32) :
    decodeU32List (encodeU32List ws) = ws := by
  induction ws with
  | nil => rfl
  | cons w rest ih =>
    have hw : w < 2 ^ 32 := h w (List.mem_cons_self _ _)
    have hrest := ih fun x hx => h x (List.mem_cons_of_mem _ hx)
    simp only [encodeU32List, decodeU32List, hrest, List.cons.injEq, and_true]
    omega

/-- C8: write a geometry with a single float vec3 attribute `position` for
4 vertices and index buffer `[0,1,2,0,2,3]` through the Mesh Codec writer
(side-table record, index-buffer blob, vertex-buffer blob, and the `root`
entry `finish()` adds), then read geometry 0 back through the Mesh Codec
reader: the reconstructed geometry has `vertexCount = 4`, `indexCount = 6`,
and position data bit-identical to the input (the same 32-bit patterns
`ws`). -/
theorem c8_geometry_roundtrip (ws rootJson : List Nat)
    (hlen : ws.length = 12) (hws : ∀ w ∈ ws, w < 2 ^ 32) :
    loadGeometry (addGeometry { geometries := [] } [("position", Core.Gl.FLOAT_VEC3, none)])
        (Btoc.setBinary
          (addVertexBuffer (addIndexBuffer [] 0 [0, 1, 2, 0, 2, 3]).2 0 "position" Core.Gl.FLOAT_VEC3 ws).2
          (strBytes "root") rootJson).2 0
      = some
        { vertexCount := 4
          vertexBuffers := [("position",
            { type := { type := Core.Gl.FLOAT_VEC3, size := 1, elemType := Core.Gl.FLOAT, elemCount := 3 }
              isNormalized := false
              data := ws })]
          indexCount := some 6
          indexData := some [0, 1, 2, 0, 2, 3] } := by
  have hne1 : (strBytes (getIndicesBufferName 0)
      == strBytes (getVertexBufferName 0 "position")) = false := by decide
  have hne2 : (strBytes (getIndicesBufferName 0) == strBytes "root") = false := by decide
  have hne3 : (strBytes (getVertexBufferName 0 "position") == strBytes "root") = false := by
    decide
  have hcont : (Btoc.setBinary
      (addVertexBuffer (addIndexBuffer [] 0 [0, 1, 2, 0, 2, 3]).2 0 "position" Core.Gl.FLOAT_VEC3 ws).2
      (strBytes "root") rootJson).2
      = [(strBytes (getIndicesBufferName 0), encodeU16List [0, 1, 2, 0, 2, 3]),
         (strBytes (getVertexBufferName 0 "position"), encodeU32List ws),
         (strBytes "root", rootJson)] := by
    simp [addIndexBuffer, addVertexBuffer, Btoc.setBinary, Btoc.mapSet, Btoc.entriesHas,
      hne1, hne2, hne3]
  rw [hcont]
  have hdec16 : decodeU16List (encodeU16List [0, 1, 2, 0, 2, 3]) = [0, 1, 2, 0, 2, 3] := by
    decide
  have hdec32 := decodeU32_encodeU32 ws hws
  have hglt : Core.mkGlType Core.Gl.FLOAT_VEC3 1
      = some { type := Core.Gl.FLOAT_VEC3, size := 1, elemType := Core.Gl.FLOAT, elemCount := 3 } := by
    decide
  simp [loadGeometry, addGeometry, loadAttributes, gatherVertexBufferData,
    Btoc.entriesHas, Btoc.lookupEntry, List.find?, hne1, hne2, hne3, hdec16, hdec32,
    hglt, hlen]

/-- C8, witness: concrete position words (twelve 32-bit patterns). -/
theorem c8_geometry_roundtrip_witness :
    ([1, 2, 3, 4, 5, 6, 7, 8, 9, 10, 11, 12] : List Nat).length = 12
      ∧ loadGeometry
          (addGeometry { geometries := [] } [("position", Core.Gl.FLOAT_VEC3, none)])
          (Btoc.setBinary
            (addVertexBuffer (addIndexBuffer [] 0 [0, 1, 2, 0, 2, 3]).2 0 "position"
              Core.Gl.FLOAT_VEC3 [1, 2, 3, 4, 5, 6, 7, 8, 9, 10, 11, 12]).2
            (strBytes "root") [123]).2 0
        = some
          { vertexCount := 4
            vertexBuffers := [("position",
              { type := { type := Core.Gl.FLOAT_VEC3, size := 1, elemType := Core.Gl.FLOAT, elemCount := 3 }
                isNormalized := false
                data := [1, 2, 3, 4, 5, 6, 7, 8, 9, 10, 11, 12] })]
            indexCount := some 6
            indexData := some [0, 1, 2, 0, 2, 3] } :=
  ⟨by decide, c8_geometry_roundtrip [1, 2, 3, 4, 5, 6, 7, 8, 9, 10, 11, 12] [123]
    (by decide) (by decide)⟩

end MeshCodec

end TinyHero
